import Mathlib

/-!
# A verification development for the namespaced Redis client

The package wraps a redigo connection pool.  The remote store, the redigo reply
helpers and the JSON codec are collaborators of the package; they appear here as
explicit parameters (`Pool.Do`, `Redigo`, `Json`).  Every operation of
`client.go` is embedded as a function that threads the store state and records
the events it causes (borrowing the connection, each round trip, the release).
The two scan loops of `Clear` and `GetKeys` have no bound in the source, so the
embedding takes the number of iterations to run as `fuel` and reports `none`
when the loop is still iterating after that many rounds.
-/

namespace Redis

/-! ## vars.go -/

def separator : String := ":"
def patternAll : String := "*"
def cmdPing : String := "PING"
def cmdGet : String := "GET"
def cmdSet : String := "SET"
def cmdSetEx : String := "SETEX"
def cmdExits : String := "EXISTS"
def cmdDel : String := "DEL"
def cmdScan : String := "SCAN"
def cmdMatch : String := "MATCH"
def cmdUnLink : String := "UNLINK"

/-- The package-level error variables, each created by `errors.New`. -/
inductive Sentinel
  | NotInitialized
  | MarshalFailed
  | PingFailed
  | GetFailed
  | SetFailed
  | SetExFailed
  | KeyNotFound
  | DelFailed
  | ClearFailed
  | ScanFailed
  | InitializeGlobalRedisFailed
  deriving DecidableEq, Repr

/-- The text given to `errors.New` for each error variable. -/
def Sentinel.text : Sentinel → String
  | .NotInitialized => "redis was not initialized"
  | .MarshalFailed => "marshal binary to object failed"
  | .PingFailed => "could not 'PING' redis"
  | .GetFailed => "could not 'GET' specified key"
  | .SetFailed => "could not 'SET' value to specified key"
  | .SetExFailed => "could not 'SETEX' value to specified key"
  | .KeyNotFound => "could not found specified key"
  | .DelFailed => "could not 'DEL' specified key"
  | .ClearFailed => "could not clear redis"
  | .ScanFailed => "could not 'SCAN' keys"
  | .InitializeGlobalRedisFailed => "could not initialize global redis client"

/-- Go error values as the package sees them: its own error variables, errors
handed over by a collaborator (`id` stands for the identity of the value), and
the value built by `fmt.Errorf` with a single `%w` operand, whose `Unwrap`
gives that operand. -/
inductive GoError
  | sentinel (s : Sentinel)
  | foreign (id : Nat) (text : String)
  | wrapped (text : String) (inner : GoError)
  deriving DecidableEq, Repr

def ErrNotInitialized : GoError := .sentinel .NotInitialized
def ErrMarshalFailed : GoError := .sentinel .MarshalFailed
def ErrPingFailed : GoError := .sentinel .PingFailed
def ErrGetFailed : GoError := .sentinel .GetFailed
def ErrSetFailed : GoError := .sentinel .SetFailed
def ErrSetExFailed : GoError := .sentinel .SetExFailed
def ErrKeyNotFound : GoError := .sentinel .KeyNotFound
def ErrDelFailed : GoError := .sentinel .DelFailed
def ErrClearFailed : GoError := .sentinel .ClearFailed
def ErrScanFailed : GoError := .sentinel .ScanFailed
def ErrInitializeGlobalRedisFailed : GoError := .sentinel .InitializeGlobalRedisFailed

/-- The method `Error()` of an error value. -/
def GoError.Error : GoError → String
  | .sentinel s => s.text
  | .foreign _ t => t
  | .wrapped t _ => t

/-- The function `errors.Unwrap`. -/
def errorsUnwrap : GoError → Option GoError
  | .wrapped _ inner => some inner
  | _ => none

/-- The function `errors.Is`: walk the `Unwrap` chain of `err` looking for `target`. -/
def errorsIs : GoError → GoError → Bool
  | .wrapped t inner, target =>
    if GoError.wrapped t inner = target then true else errorsIs inner target
  | err, target => decide (err = target)

/-- The call `fmt.Errorf(errorWrapper, tag, err)` with `errorWrapper = "%w: %v"`:
the `%w` operand `tag` is the wrapped error, the `%v` operand only contributes
its text. -/
def Errorf (tag err : GoError) : GoError :=
  .wrapped (tag.Error ++ ": " ++ err.Error) tag

/-! ## The two uses of `fmt.Sprintf` and `strings.Join` -/

/-- The function `strings.Join`. -/
def Join (elems : List String) (sep : String) : String :=
  match elems with
  | [] => ""
  | e :: rest => rest.foldl (fun b s => b ++ sep ++ s) e

/-- The call `fmt.Sprintf("%s:%s", a, b)` on two string operands. -/
def SprintfSS (a b : String) : String := a ++ ":" ++ b

/-- The limit `tooLarge` of package fmt for a width, precision or index. -/
def tooLarge (x : Nat) : Bool := decide (x > 1000000)

/-- The loop of `parsenum` over the characters up to the end bound. -/
def parsenumLoop : List Char → Nat → Bool → Bool × List Char
  | [], _, isnum => (isnum, [])
  | c :: cs, num, isnum =>
    if '0' ≤ c ∧ c ≤ '9' then
      if tooLarge num then (false, [])
      else parsenumLoop cs (num * 10 + (c.toNat - '0'.toNat)) true
    else (isnum, c :: cs)

/-- The function `parsenum` of package fmt on the slice between its start and
end bounds: whether a number was read, and what is left of the slice (nothing
after an overflow, where the source jumps to the end bound). -/
def parsenum (s : List Char) : Bool × List Char := parsenumLoop s 0 false

/-- The function `parseArgNumber` of package fmt on the format from an opening
bracket on: the format after the consumed part, and whether an index was read. -/
def parseArgNumber (format : List Char) : List Char × Bool :=
  if (String.mk format).utf8ByteSize < 3 then (format.drop 1, false)
  else
    match (format.drop 1).dropWhile (fun c => c != ']') with
    | [] => (format.drop 1, false)
    | _ :: rest =>
      let r := parsenum ((format.drop 1).takeWhile (fun c => c != ']'))
      if !r.1 || r.2 != [] then (rest, false) else (rest, true)

/-- The method `argNumber` of package fmt when there is no operand: the format
after the index, whether an index was found, and the flag `goodArgNum`. -/
def argNumber (format : List Char) (good : Bool) : List Char × Bool × Bool :=
  match format with
  | '[' :: _ => let r := parseArgNumber format; (r.1, r.2, false)
  | _ => (format, false, good)

/-- The flag characters skipped after a percent sign. -/
def isFlag (c : Char) : Bool := c == '#' || c == '0' || c == '+' || c == '-' || c == ' '

/-- The width part of a directive: text written, format left, `afterIndex`, `goodArgNum`. -/
def doWidth (format : List Char) (afterIndex good : Bool) :
    List Char × List Char × Bool × Bool :=
  match format with
  | '*' :: r => ("%!(BADWIDTH)".data, r, false, good)
  | _ =>
    let r := parsenum format
    ([], r.2, afterIndex, good && !(afterIndex && r.1))

/-- The precision part of a directive. -/
def doPrecision (format : List Char) (afterIndex good : Bool) :
    List Char × List Char × Bool × Bool :=
  match format with
  | '.' :: r =>
    let a := argNumber r (good && !afterIndex)
    match a.1 with
    | '*' :: r2 => ("%!(BADPREC)".data, r2, false, a.2.2)
    | _ => ([], (parsenum a.1).2, a.2.1, a.2.2)
  | _ => ([], format, afterIndex, good)

/-- The verb of a directive, read after flags, index, width and precision. -/
def doVerb (format : List Char) (good : Bool) : List Char × List Char :=
  match format with
  | [] => ("%!(NOVERB)".data, [])
  | verb :: rest =>
    if verb = '%' then (['%'], rest)
    else if !good then ("%!".data ++ [verb] ++ "(BADINDEX)".data, rest)
    else ("%!".data ++ [verb] ++ "(MISSING)".data, rest)

/-- The method `doPrintf` of package fmt for an empty operand list; one round
of the format loop per unit of fuel. -/
def doPrintf : Nat → List Char → List Char
  | 0, _ => []
  | fuel + 1, format =>
    match format.dropWhile (fun c => c != '%') with
    | [] => format.takeWhile (fun c => c != '%')
    | _ :: f1 =>
      let a := argNumber (f1.dropWhile isFlag) true
      let w := doWidth a.1 a.2.1 a.2.2
      let p := doPrecision w.2.1 w.2.2.1 w.2.2.2
      let b := if p.2.2.1 then (p.2.1, p.2.2.1, p.2.2.2) else argNumber p.2.1 p.2.2.2
      let v := doVerb b.1 b.2.2
      format.takeWhile (fun c => c != '%') ++ w.1 ++ p.1 ++ v.1 ++ doPrintf fuel v.2

/-- The call `fmt.Sprintf(format)` with no operand, as `Clear` and `GetKeys`
make it on the resolved pattern. -/
def Sprintf0 (format : String) : String :=
  String.mk (doPrintf (format.length + 1) format.data)

/-- The lines `ns := key; if len(namespace) > 0 { ns = fmt.Sprintf("%s:%s",
strings.Join(namespace, separator), ns) }` that open every keyed operation. -/
def namespaced (key : String) (nspace : List String) : String :=
  if nspace.length > 0 then SprintfSS (Join nspace separator) key else key

/-! ## Commands, connections and the client -/

/-- An argument of a command handed to `Conn.Do`. -/
inductive Arg
  | str (s : String)
  | int (n : Int)
  | bytes (b : List UInt8)
  | bool (b : Bool)
  deriving DecidableEq, Repr

/-- A command handed to `Conn.Do`: its name and its arguments. -/
structure Command where
  name : String
  args : List Arg
  deriving DecidableEq, Repr

/-- What an operation does to its collaborators, in order. -/
inductive Event
  | borrow
  | Do (cmd : Command) (failed : Bool)
  | Unmarshal (raw : List UInt8)
  | release
  | closePool
  deriving DecidableEq, Repr

/-- A connection pool over a store with states `σ` and replies `ρ`: `Do` is one
round trip on the borrowed connection, returning Go's `(reply, err)` pair and
the next store state.  A reply of `none` is the nil interface value. -/
structure Pool (σ ρ : Type) where
  Do : σ → Command → (Option ρ × Option GoError) × σ

/-- The struct `Client`; the embedded lock manager takes no part in any
operation of client.go and is left out. -/
structure ClientRec (σ ρ : Type) where
  pool : Option (Pool σ ρ)

/-- A `*Client`, which may be nil. -/
abbrev Client (σ ρ : Type) := Option (ClientRec σ ρ)

/-- The constructor `NewClientFromPool`. -/
def NewClientFromPool {σ ρ : Type} (pool : Option (Pool σ ρ)) : Client σ ρ :=
  some ⟨pool⟩

/-- The guard `e == nil || e.pool == nil` read positively: the pool of a client
that passes it. -/
def Client.guarded {σ ρ : Type} : Client σ ρ → Option (Pool σ ρ)
  | none => none
  | some c => c.pool

/-- The reply helpers of redigo, applied to a reply that came without error. -/
structure Redigo (ρ : Type) where
  convBool : Option ρ → Bool × Option GoError
  convBytes : Option ρ → List UInt8 × Option GoError
  convInt : Option ρ → Int × Option GoError
  convString : Option ρ → String × Option GoError
  convValues : Option ρ → List ρ × Option GoError
  /-- The call `redis.Scan(values, &cursor, &keys)`: given the values and the
  present contents of the two destinations, their new contents and the error. -/
  convScan : List ρ → Int → List String → (Int × List String) × Option GoError

/-- The helper `redis.Bool`: an error passed in is passed on. -/
def redisBool {ρ : Type} (rg : Redigo ρ) (r : Option ρ × Option GoError) : Bool × Option GoError :=
  match r.2 with
  | some err => (false, some err)
  | none => rg.convBool r.1

/-- The helper `redis.Bytes`. -/
def redisBytes {ρ : Type} (rg : Redigo ρ) (r : Option ρ × Option GoError) :
    List UInt8 × Option GoError :=
  match r.2 with
  | some err => ([], some err)
  | none => rg.convBytes r.1

/-- The helper `redis.Int`. -/
def redisInt {ρ : Type} (rg : Redigo ρ) (r : Option ρ × Option GoError) : Int × Option GoError :=
  match r.2 with
  | some err => (0, some err)
  | none => rg.convInt r.1

/-- The helper `redis.String`. -/
def redisString {ρ : Type} (rg : Redigo ρ) (r : Option ρ × Option GoError) :
    String × Option GoError :=
  match r.2 with
  | some err => ("", some err)
  | none => rg.convString r.1

/-- The helper `redis.Values`. -/
def redisValues {ρ : Type} (rg : Redigo ρ) (r : Option ρ × Option GoError) :
    List ρ × Option GoError :=
  match r.2 with
  | some err => ([], some err)
  | none => rg.convValues r.1

/-- The run of an operation: the events it caused, the store it leaves, and
what it returned. -/
structure Run (σ α : Type) where
  trace : List Event
  store : σ
  result : α

/-- A call that returns normally or hits a nil pointer dereference. -/
inductive Outcome (α : Type)
  | returned (v : α)
  | panicked

/-- The JSON codec behind `json.Marshal` and `json.Unmarshal`, for objects of
type `ω`; `Unmarshal` gives the destination as it leaves it and the error. -/
structure Json (ω : Type) where
  Marshal : ω → List UInt8 × Option GoError
  Unmarshal : List UInt8 → ω → ω × Option GoError

/-! ## client.go -/

section Operations

variable {σ ρ ω : Type}

/-- The method `Close`: it reads `e.pool` and calls `Close` on it with no guard;
a nil client or a nil pool is dereferenced. -/
def Close (e : Client σ ρ) : List Event × Outcome Unit :=
  match e with
  | none => ([], .panicked)
  | some c =>
    match c.pool with
    | none => ([], .panicked)
    | some _ => ([.closePool], .returned ())

/-- The method `Pool`: it returns the field `e.pool` with no guard. -/
def Client.Pool (e : Client σ ρ) : Outcome (Option (Pool σ ρ)) :=
  match e with
  | none => .panicked
  | some c => .returned c.pool

/-- The method `Ping`. -/
def Ping (e : Client σ ρ) (s : σ) : Run σ (Option GoError) :=
  match e.guarded with
  | none => ⟨[], s, some ErrNotInitialized⟩
  | some p =>
    let cmd : Command := ⟨cmdPing, []⟩
    let r := p.Do s cmd
    match r.1.2 with
    | some err => ⟨[.borrow, .Do cmd true, .release], r.2, some (Errorf ErrPingFailed err)⟩
    | none => ⟨[.borrow, .Do cmd false, .release], r.2, none⟩

/-- The method `Get`. -/
def Get (e : Client σ ρ) (key : String) (nspace : List String) (s : σ) :
    Run σ (Option ρ × Option GoError) :=
  match e.guarded with
  | none => ⟨[], s, (none, some ErrNotInitialized)⟩
  | some p =>
    let cmd : Command := ⟨cmdGet, [.str (namespaced key nspace)]⟩
    let r := p.Do s cmd
    match r.1.2 with
    | some err => ⟨[.borrow, .Do cmd true, .release], r.2, (none, some (Errorf ErrGetFailed err))⟩
    | none => ⟨[.borrow, .Do cmd false, .release], r.2, (r.1.1, none)⟩

/-- The method `GetBool`. -/
def GetBool (rg : Redigo ρ) (e : Client σ ρ) (key : String) (nspace : List String) (s : σ) :
    Run σ (Bool × Option GoError) :=
  let r := Get e key nspace s
  ⟨r.trace, r.store, redisBool rg r.result⟩

/-- The method `GetBytes`. -/
def GetBytes (rg : Redigo ρ) (e : Client σ ρ) (key : String) (nspace : List String) (s : σ) :
    Run σ (List UInt8 × Option GoError) :=
  let r := Get e key nspace s
  ⟨r.trace, r.store, redisBytes rg r.result⟩

/-- The method `GetInt`. -/
def GetInt (rg : Redigo ρ) (e : Client σ ρ) (key : String) (nspace : List String) (s : σ) :
    Run σ (Int × Option GoError) :=
  let r := Get e key nspace s
  ⟨r.trace, r.store, redisInt rg r.result⟩

/-- The method `GetString`. -/
def GetString (rg : Redigo ρ) (e : Client σ ρ) (key : String) (nspace : List String) (s : σ) :
    Run σ (String × Option GoError) :=
  let r := Get e key nspace s
  ⟨r.trace, r.store, redisString rg r.result⟩

/-- The method `Set`. -/
def Set (e : Client σ ρ) (key : String) (value : Arg) (nspace : List String) (s : σ) :
    Run σ (Option GoError) :=
  match e.guarded with
  | none => ⟨[], s, some ErrNotInitialized⟩
  | some p =>
    let cmd : Command := ⟨cmdSet, [.str (namespaced key nspace), value]⟩
    let r := p.Do s cmd
    match r.1.2 with
    | some err => ⟨[.borrow, .Do cmd true, .release], r.2, some (Errorf ErrSetFailed err)⟩
    | none => ⟨[.borrow, .Do cmd false, .release], r.2, none⟩

/-- The constant `time.Second`, in nanoseconds. -/
def Second : Int := 1000000000

/-- Reduction of an integer to the 64-bit two's complement range. -/
def wrapInt64 (x : Int) : Int := (x + 2 ^ 63) % 2 ^ 64 - 2 ^ 63

/-- The expression `int(duration/time.Second)`: Go's integer division, which
rounds toward zero, on the `int64` behind `time.Duration`, then the conversion
to `int` (64 bits wide, as on the 64-bit platforms). -/
def wholeSeconds (duration : Int) : Int :=
  wrapInt64 (wrapInt64 (Int.tdiv duration Second))

/-- The method `SetEx`; `duration` is the `time.Duration`, a count of nanoseconds. -/
def SetEx (e : Client σ ρ) (key : String) (value : Arg) (duration : Int)
    (nspace : List String) (s : σ) : Run σ (Option GoError) :=
  match e.guarded with
  | none => ⟨[], s, some ErrNotInitialized⟩
  | some p =>
    let cmd : Command :=
      ⟨cmdSetEx, [.str (namespaced key nspace), .int (wholeSeconds duration), value]⟩
    let r := p.Do s cmd
    match r.1.2 with
    | some err => ⟨[.borrow, .Do cmd true, .release], r.2, some (Errorf ErrSetExFailed err)⟩
    | none => ⟨[.borrow, .Do cmd false, .release], r.2, none⟩

/-- The method `Exists`. -/
def Exists (rg : Redigo ρ) (e : Client σ ρ) (key : String) (nspace : List String) (s : σ) :
    Run σ (Bool × Option GoError) :=
  match e.guarded with
  | none => ⟨[], s, (false, some ErrNotInitialized)⟩
  | some p =>
    let cmd : Command := ⟨cmdExits, [.str (namespaced key nspace)]⟩
    let r := p.Do s cmd
    let b := redisBool rg r.1
    match b.2 with
    | some err =>
      ⟨[.borrow, .Do cmd true, .release], r.2, (false, some (Errorf ErrKeyNotFound err))⟩
    | none => ⟨[.borrow, .Do cmd false, .release], r.2, (b.1, none)⟩

/-- The method `Delete`. -/
def Delete (e : Client σ ρ) (key : String) (nspace : List String) (s : σ) :
    Run σ (Option GoError) :=
  match e.guarded with
  | none => ⟨[], s, some ErrNotInitialized⟩
  | some p =>
    let cmd : Command := ⟨cmdDel, [.str (namespaced key nspace)]⟩
    let r := p.Do s cmd
    match r.1.2 with
    | some err => ⟨[.borrow, .Do cmd true, .release], r.2, some (Errorf ErrDelFailed err)⟩
    | none => ⟨[.borrow, .Do cmd false, .release], r.2, none⟩

/-- The SCAN command both loops send: the cursor, `MATCH`, and `fmt.Sprintf(ns)`. -/
def scanCommand (cursor : Int) (ns : String) : Command :=
  ⟨cmdScan, [.int cursor, .str cmdMatch, .str (Sprintf0 ns)]⟩

/-- The UNLINK command of `Clear` for one batch of keys. -/
def unlinkCommand (keys : List String) : Command :=
  ⟨cmdUnLink, keys.map Arg.str⟩

/-- The `for` loop of `Clear`, run for at most `fuel` iterations from the loop
variables `cursor` and `keys`; the result is `none` while the loop goes on. -/
def Clear.loop (rg : Redigo ρ) (p : Pool σ ρ) (ns : String) :
    Nat → Int → List String → σ → Run σ (Option (Option GoError))
  | 0, _, _, s => ⟨[], s, none⟩
  | fuel + 1, cursor, keys, s =>
    let cmd := scanCommand cursor ns
    let r := p.Do s cmd
    let v := redisValues rg r.1
    match v.2 with
    | some err => ⟨[.Do cmd true], r.2, some (some (Errorf ErrClearFailed err))⟩
    | none =>
      let d := rg.convScan v.1 cursor keys
      match d.2 with
      | some err => ⟨[.Do cmd true], r.2, some (some (Errorf ErrClearFailed err))⟩
      | none =>
        if d.1.2.length > 0 then
          let u := p.Do r.2 (unlinkCommand d.1.2)
          match u.1.2 with
          | some err =>
            ⟨[.Do cmd false, .Do (unlinkCommand d.1.2) true], u.2,
              some (some (Errorf ErrClearFailed err))⟩
          | none =>
            if d.1.1 = 0 then
              ⟨[.Do cmd false, .Do (unlinkCommand d.1.2) false], u.2, some none⟩
            else
              let rest := Clear.loop rg p ns fuel d.1.1 d.1.2 u.2
              ⟨.Do cmd false :: .Do (unlinkCommand d.1.2) false :: rest.trace,
                rest.store, rest.result⟩
        else if d.1.1 = 0 then ⟨[.Do cmd false], r.2, some none⟩
        else
          let rest := Clear.loop rg p ns fuel d.1.1 d.1.2 r.2
          ⟨.Do cmd false :: rest.trace, rest.store, rest.result⟩

/-- The method `Clear`, its loop run for at most `fuel` iterations; the deferred
release of the connection happens when the method returns. -/
def Clear (rg : Redigo ρ) (fuel : Nat) (e : Client σ ρ) (pattern : String)
    (nspace : List String) (s : σ) : Run σ (Option (Option GoError)) :=
  match e.guarded with
  | none => ⟨[], s, some (some ErrNotInitialized)⟩
  | some p =>
    let r := Clear.loop rg p (namespaced pattern nspace) fuel 0 [] s
    ⟨.borrow :: r.trace ++ (if r.result.isSome then [.release] else []), r.store, r.result⟩

/-- The method `ClearAll`. -/
def ClearAll (rg : Redigo ρ) (fuel : Nat) (e : Client σ ρ) (nspace : List String) (s : σ) :
    Run σ (Option (Option GoError)) :=
  Clear rg fuel e patternAll nspace s

/-- The `for` loop of `GetKeys`, run for at most `fuel` iterations from the loop
variables `cursor`, `items` and `keys`; the result is `none` while the loop goes on. -/
def GetKeys.loop (rg : Redigo ρ) (p : Pool σ ρ) (ns : String) :
    Nat → Int → List String → List String → σ →
      Run σ (Option (List String × Option GoError))
  | 0, _, _, _, s => ⟨[], s, none⟩
  | fuel + 1, cursor, items, keys, s =>
    let cmd := scanCommand cursor ns
    let r := p.Do s cmd
    let v := redisValues rg r.1
    match v.2 with
    | some err => ⟨[.Do cmd true], r.2, some ([], some (Errorf ErrScanFailed err))⟩
    | none =>
      let d := rg.convScan v.1 cursor items
      match d.2 with
      | some err => ⟨[.Do cmd true], r.2, some ([], some (Errorf ErrScanFailed err))⟩
      | none =>
        if d.1.1 = 0 then ⟨[.Do cmd false], r.2, some (keys ++ d.1.2, none)⟩
        else
          let rest := GetKeys.loop rg p ns fuel d.1.1 d.1.2 (keys ++ d.1.2) r.2
          ⟨.Do cmd false :: rest.trace, rest.store, rest.result⟩

/-- The method `GetKeys`, its loop run for at most `fuel` iterations. -/
def GetKeys (rg : Redigo ρ) (fuel : Nat) (e : Client σ ρ) (pattern : String)
    (nspace : List String) (s : σ) : Run σ (Option (List String × Option GoError)) :=
  match e.guarded with
  | none => ⟨[], s, some ([], some ErrNotInitialized)⟩
  | some p =>
    let r := GetKeys.loop rg p (namespaced pattern nspace) fuel 0 [] [] s
    ⟨.borrow :: r.trace ++ (if r.result.isSome then [.release] else []), r.store, r.result⟩

/-- The method `GetAllKeys`. -/
def GetAllKeys (rg : Redigo ρ) (fuel : Nat) (e : Client σ ρ) (nspace : List String) (s : σ) :
    Run σ (Option (List String × Option GoError)) :=
  GetKeys rg fuel e patternAll nspace s

/-- The method `SetObject`; the error of `json.Marshal` is dropped. -/
def SetObject (js : Json ω) (e : Client σ ρ) (key : String) (value : ω)
    (nspace : List String) (s : σ) : Run σ (Option GoError) :=
  Set e key (.bytes (js.Marshal value).1) nspace s

/-- The method `SetObjectEx`. -/
def SetObjectEx (js : Json ω) (e : Client σ ρ) (key : String) (value : ω) (duration : Int)
    (nspace : List String) (s : σ) : Run σ (Option GoError) :=
  SetEx e key (.bytes (js.Marshal value).1) duration nspace s

/-- The method `GetObject`; the result carries the destination `obj` as the
method leaves it. -/
def GetObject (rg : Redigo ρ) (js : Json ω) (e : Client σ ρ) (key : String) (obj : ω)
    (nspace : List String) (s : σ) : Run σ (ω × Option GoError) :=
  let r := GetBytes rg e key nspace s
  match r.result.2 with
  | some err => ⟨r.trace, r.store, (obj, some err)⟩
  | none =>
    let u := js.Unmarshal r.result.1 obj
    match u.2 with
    | some _ => ⟨r.trace ++ [.Unmarshal r.result.1], r.store, (u.1, some ErrMarshalFailed)⟩
    | none => ⟨r.trace ++ [.Unmarshal r.result.1], r.store, (u.1, none)⟩

end Operations

/-! ## Reading a run -/

/-- The commands of a trace, in the order they were sent. -/
def sentCommands : List Event → List Command
  | [] => []
  | .Do cmd _ :: rest => cmd :: sentCommands rest
  | _ :: rest => sentCommands rest

/-- The resolved key in the words of the specification: the base unchanged when
there is no segment, otherwise the segments joined by a colon, a colon, and the base. -/
def specResolve (base : String) (segments : List String) : String :=
  if segments = [] then base else ":".intercalate segments ++ ":" ++ base

/-! ## Stores used to run the operations on concrete inputs -/

/-- Replies of the test stores: a SCAN page, an integer, a bulk string, nil. -/
inductive TestReply
  | page (cursor : Int) (keys : List String)
  | int (n : Int)
  | bulk (b : List UInt8)
  deriving DecidableEq, Repr

/-- The error of a reply helper given a reply of the wrong kind. -/
def errUnexpected : GoError := .foreign 1 "redigo: unexpected type"

/-- The error `redis.ErrNil`. -/
def errNil : GoError := .foreign 2 "redigo: nil returned"

/-- The transport error of the test stores. -/
def errRefused : GoError := .foreign 3 "dial tcp: connection refused"

/-- Reply helpers for `TestReply`. -/
def testRedigo : Redigo TestReply where
  convBool r :=
    match r with
    | some (.int n) => (decide (n ≠ 0), none)
    | none => (false, some errNil)
    | _ => (false, some errUnexpected)
  convBytes r :=
    match r with
    | some (.bulk b) => (b, none)
    | none => ([], some errNil)
    | _ => ([], some errUnexpected)
  convInt r :=
    match r with
    | some (.int n) => (n, none)
    | none => (0, some errNil)
    | _ => (0, some errUnexpected)
  convString r :=
    match r with
    | some (.bulk b) => (String.mk (b.map (fun x => Char.ofNat x.toNat)), none)
    | none => ("", some errNil)
    | _ => ("", some errUnexpected)
  convValues r :=
    match r with
    | some (.page c ks) => ([.page c ks], none)
    | none => ([], some errNil)
    | _ => ([], some errUnexpected)
  convScan vs cursor keys :=
    match vs with
    | [.page c ks] => ((c, ks), none)
    | _ => ((cursor, keys), some errUnexpected)

/-- A store that answers the n-th round trip with the n-th entry of a script,
whatever the command, and with a transport error once the script is used up. -/
def scriptPool (script : List (Option TestReply × Option GoError)) : Pool Nat TestReply where
  Do n _ := (script.getD n (none, some errRefused), n + 1)

/-- A store that answers every round trip with the same reply. -/
def constPool (reply : Option TestReply × Option GoError) : Pool Unit TestReply where
  Do _ _ := (reply, ())

/-- A codec for the test runs: the object is a list of bytes, stored as it is;
decoding fails on an empty input and leaves the destination alone. -/
def testJson : Json (List UInt8) where
  Marshal v := (v, none)
  Unmarshal raw obj :=
    match raw with
    | [] => (obj, some (.foreign 4 "unexpected end of JSON input"))
    | _ => (raw, none)

/-! ## Describing what a store serves to the scan loops -/

section Serving

variable {σ ρ : Type}

/-- What one SCAN round trip of the loops yields once `redis.Values` and
`redis.Scan` have read the reply: the page (new cursor, keys) and the next store
state, or no page when the round trip or the decoding failed. -/
def scanPage (rg : Redigo ρ) (p : Pool σ ρ) (ns : String) (cursor : Int) (dest : List String)
    (s : σ) : Option (Int × List String) × σ :=
  let r := p.Do s (scanCommand cursor ns)
  let v := redisValues rg r.1
  match v.2 with
  | some _ => (none, r.2)
  | none =>
    let d := rg.convScan v.1 cursor dest
    match d.2 with
    | some _ => (none, r.2)
    | none => (some d.1, r.2)

/-- The store, read from state `s` with successive SCANs starting at `cursor`
and nothing else sent in between, serves exactly the given pages without a
failure: every page but the last has a non-zero cursor, the last has cursor 0. -/
def ServesPages (rg : Redigo ρ) (p : Pool σ ρ) (ns : String) :
    List (Int × List String) → Int → List String → σ → Prop
  | [], _, _, _ => False
  | pg :: rest, cursor, dest, s =>
    (scanPage rg p ns cursor dest s).1 = some pg ∧
      ((pg.1 = 0 ∧ rest = []) ∨
        (pg.1 ≠ 0 ∧ ServesPages rg p ns rest pg.1 pg.2 (scanPage rg p ns cursor dest s).2))

/-- The store state after the UNLINK of a batch, sent only when the batch is not
empty; none when that round trip fails. -/
def unlinked (p : Pool σ ρ) (keys : List String) (s : σ) : Option σ :=
  if keys.length > 0 then
    match (p.Do s (unlinkCommand keys)).1.2 with
    | some _ => none
    | none => some (p.Do s (unlinkCommand keys)).2
  else some s

/-- As `ServesPages`, for a reader that sends after each page with keys one
UNLINK of those keys, which the store accepts. -/
def ServesClearPages (rg : Redigo ρ) (p : Pool σ ρ) (ns : String) :
    List (Int × List String) → Int → List String → σ → Prop
  | [], _, _, _ => False
  | pg :: rest, cursor, dest, s =>
    (scanPage rg p ns cursor dest s).1 = some pg ∧
      ∃ s1, unlinked p pg.2 (scanPage rg p ns cursor dest s).2 = some s1 ∧
        ((pg.1 = 0 ∧ rest = []) ∨ (pg.1 ≠ 0 ∧ ServesClearPages rg p ns rest pg.1 pg.2 s1))

/-- The store never fails a SCAN and never answers one with cursor 0. -/
def NeverConverges (rg : Redigo ρ) (p : Pool σ ρ) (ns : String) : Prop :=
  ∀ cursor dest s, ∃ pg, (scanPage rg p ns cursor dest s).1 = some pg ∧ pg.1 ≠ 0

/-- The store never fails an UNLINK. -/
def UnlinkNeverFails (p : Pool σ ρ) : Prop :=
  ∀ keys s, (p.Do s (unlinkCommand keys)).1.2 = none

end Serving

/-- The successful SCAN round trips expected for a list of pages: the first with
`cursor`, each next one with the cursor of the page before. -/
def scanRoundTrips (ns : String) : Int → List (Int × List String) → List Event
  | _, [] => []
  | cursor, pg :: rest => .Do (scanCommand cursor ns) false :: scanRoundTrips ns pg.1 rest

/-- The successful round trips expected of `Clear` for a list of pages: per
page one SCAN, then one UNLINK of the keys of the page when it has any. -/
def clearRoundTrips (ns : String) : Int → List (Int × List String) → List Event
  | _, [] => []
  | cursor, pg :: rest =>
    .Do (scanCommand cursor ns) false ::
      ((if pg.2 = [] then [] else [.Do (unlinkCommand pg.2) false])
        ++ clearRoundTrips ns pg.1 rest)

/-- The arguments of all UNLINK commands of a trace, in order. -/
def unlinkedArgs (trace : List Event) : List Arg :=
  ((sentCommands trace).filter (fun c => c.name == cmdUnLink)).flatMap Command.args

/-- The number of SCAN commands in a trace. -/
def scanCount (trace : List Event) : Nat :=
  ((sentCommands trace).filter (fun c => c.name == cmdScan)).length

/-- All keys of a list of pages, page after page. -/
def pageKeys (pages : List (Int × List String)) : List String :=
  (pages.map Prod.snd).flatten

/-- A store serving the keys a, b under cursor 7 and then the key c under cursor 0. -/
def twoPagePool : Pool Nat TestReply :=
  scriptPool [(some (.page 7 ["a", "b"]), none), (some (.page 0 ["c"]), none)]

/-- A store serving to `Clear` the keys a, b under cursor 7 (then accepting their
UNLINK), an empty page under cursor 3, and the key c under cursor 0 (then
accepting its UNLINK). -/
def clearPool : Pool Nat TestReply :=
  scriptPool [(some (.page 7 ["a", "b"]), none), (some (.int 2), none),
    (some (.page 3 []), none), (some (.page 0 ["c"]), none), (some (.int 1), none)]

/-- A store that answers every round trip with the page (1, [a]): its SCAN
cursor is never 0 and nothing ever fails. -/
def stuckPool : Pool Unit TestReply := constPool (some (.page 1 ["a"]), none)

/-- A store that serves the page (7, [a]) and refuses every later round trip. -/
def failingPool : Pool Nat TestReply := scriptPool [(some (.page 7 ["a"]), none)]

/-! # Theorems -/

/-! ## Namespace resolution -/

theorem intercalate_go_eq_foldl (sep : String) (rest : List String) (acc : String) :
    String.intercalate.go acc sep rest = rest.foldl (fun b x => b ++ sep ++ x) acc := by
  induction rest generalizing acc with
  | nil => rfl
  | cons a rest ih => simp [String.intercalate.go, ih]

theorem Join_eq_intercalate (elems : List String) (sep : String) :
    Join elems sep = sep.intercalate elems := by
  cases elems with
  | nil => rfl
  | cons a rest => simp [Join, String.intercalate, intercalate_go_eq_foldl]

theorem namespaced_eq_specResolve (key : String) (nspace : List String) :
    namespaced key nspace = specResolve key nspace := by
  cases nspace with
  | nil => rfl
  | cons a rest =>
    simp [namespaced, specResolve, SprintfSS, Join_eq_intercalate, separator]

theorem foldl_join_left (sep : String) (rest : List String) (acc : String) :
    ∃ suf, rest.foldl (fun b x => b ++ sep ++ x) acc = acc ++ suf := by
  induction rest generalizing acc with
  | nil => exact ⟨"", by simp⟩
  | cons a rest ih =>
    obtain ⟨suf, h⟩ := ih (acc ++ sep ++ a)
    exact ⟨sep ++ a ++ suf, by rw [List.foldl_cons, h]; simp [String.append_assoc]⟩

theorem specResolve_cons_left (base a : String) (rest : List String) :
    ∃ suf, specResolve base (a :: rest) = a ++ suf := by
  obtain ⟨suf, h⟩ := foldl_join_left ":" rest a
  refine ⟨suf ++ ":" ++ base, ?_⟩
  simp only [specResolve, String.intercalate, intercalate_go_eq_foldl, h]
  simp [String.append_assoc]

/-- C3: on an initialized client, the single command of Get, Set, SetEx, Exists
and Delete carries as its key the base key unchanged when there is no namespace
segment and otherwise the segments joined by ":" followed by ":" and the key;
with a first segment `a` the sent key starts with `a` and ends with ":" and the
key; key "k" under ["a","b"] is sent as "a:b:k". -/
theorem C3_namespace_resolution {σ ρ : Type} (rg : Redigo ρ) (p : Pool σ ρ) (key : String)
    (value : Arg) (duration : Int) (S : List String) (s : σ) :
    (sentCommands (Get (NewClientFromPool (some p)) key S s).trace
        = [⟨"GET", [.str (specResolve key S)]⟩]
      ∧ sentCommands (Set (NewClientFromPool (some p)) key value S s).trace
        = [⟨"SET", [.str (specResolve key S), value]⟩]
      ∧ sentCommands (SetEx (NewClientFromPool (some p)) key value duration S s).trace
        = [⟨"SETEX", [.str (specResolve key S), .int (wholeSeconds duration), value]⟩]
      ∧ sentCommands (Exists rg (NewClientFromPool (some p)) key S s).trace
        = [⟨"EXISTS", [.str (specResolve key S)]⟩]
      ∧ sentCommands (Delete (NewClientFromPool (some p)) key S s).trace
        = [⟨"DEL", [.str (specResolve key S)]⟩])
    ∧ specResolve key [] = key
    ∧ (∀ a rest, specResolve key (a :: rest) = Join (a :: rest) ":" ++ ":" ++ key
        ∧ (∃ suf, specResolve key (a :: rest) = a ++ suf)
        ∧ (∃ pre, specResolve key (a :: rest) = pre ++ (":" ++ key)))
    ∧ specResolve "k" ["a", "b"] = "a:b:k" := by
  refine ⟨⟨?_, ?_, ?_, ?_, ?_⟩, rfl, ?_, by decide⟩
  · simp only [Get, NewClientFromPool, Client.guarded, namespaced_eq_specResolve, cmdGet]
    split <;> rfl
  · simp only [Set, NewClientFromPool, Client.guarded, namespaced_eq_specResolve, cmdSet]
    split <;> rfl
  · simp only [SetEx, NewClientFromPool, Client.guarded, namespaced_eq_specResolve, cmdSetEx]
    split <;> rfl
  · simp only [Exists, NewClientFromPool, Client.guarded, namespaced_eq_specResolve, cmdExits]
    split <;> rfl
  · simp only [Delete, NewClientFromPool, Client.guarded, namespaced_eq_specResolve, cmdDel]
    split <;> rfl
  · intro a rest
    refine ⟨?_, specResolve_cons_left key a rest, ?_⟩
    · simp [specResolve, Join_eq_intercalate]
    · exact ⟨":".intercalate (a :: rest), by simp [specResolve, String.append_assoc]⟩

/-! ## Expiry of SetEx -/

theorem wrapInt64_of_range (x : Int) (lo : -(2 ^ 63) ≤ x) (hi : x < 2 ^ 63) :
    wrapInt64 x = x := by
  unfold wrapInt64
  rw [Int.emod_eq_of_lt (by omega) (by omega)]
  omega

theorem tdiv_second_eq (d : Int) :
    Int.tdiv d 1000000000 = if 0 ≤ d then d / 1000000000 else -((-d) / 1000000000) := by
  split
  · next h => exact Int.tdiv_eq_ediv h (by norm_num)
  · next h =>
    have h1 : Int.tdiv d 1000000000 = -(Int.tdiv (-d) 1000000000) := by
      rw [Int.neg_tdiv, neg_neg]
    rw [h1, Int.tdiv_eq_ediv (by omega) (by norm_num)]

theorem wholeSeconds_of_range (d : Int) (lo : -(2 ^ 63) ≤ d) (hi : d < 2 ^ 63) :
    wholeSeconds d = Int.tdiv d 1000000000 := by
  have h1 : -(2 ^ 63) ≤ Int.tdiv d 1000000000 := by
    rw [tdiv_second_eq]; split <;> omega
  have h2 : Int.tdiv d 1000000000 < 2 ^ 63 := by
    rw [tdiv_second_eq]; split <;> omega
  unfold wholeSeconds Second
  rw [wrapInt64_of_range _ h1 h2, wrapInt64_of_range _ h1 h2]

/-- C4, refuted as stated: for the duration of -1500 ms the SETEX command of
SetEx carries the expiry -1, while the floor of -1.5 is -2. -/
theorem C4_negative_duration_not_floor :
    sentCommands (SetEx (NewClientFromPool (some (constPool (none, none)))) "k" (.str "v")
        (-1500000000) [] ()).trace
      = [⟨"SETEX", [.str "k", .int (-1), .str "v"]⟩]
    ∧ ⌊((-1500000000 : Int) : ℚ) / 1000000000⌋ = -2 := by
  constructor
  · decide
  · norm_num [Int.floor_eq_iff]

/-- C4, amended: for every duration d that fits the 64-bit `time.Duration`, the
expiry in the SETEX command of SetEx is d divided by one second rounded toward
zero; for every d that is not negative this is the floor of d over one second;
1500 ms gives 1. -/
theorem C4_ttl_truncation {σ ρ : Type} (p : Pool σ ρ) (key : String) (value : Arg)
    (d : Int) (S : List String) (s : σ) (lo : -(2 ^ 63) ≤ d) (hi : d < 2 ^ 63) :
    sentCommands (SetEx (NewClientFromPool (some p)) key value d S s).trace
      = [⟨"SETEX", [.str (specResolve key S), .int (Int.tdiv d 1000000000), value]⟩]
    ∧ (0 ≤ d → Int.tdiv d 1000000000 = ⌊(d : ℚ) / 1000000000⌋)
    ∧ wholeSeconds 1500000000 = 1 := by
  refine ⟨?_, ?_, by decide⟩
  · rw [← wholeSeconds_of_range d lo hi]
    simp only [SetEx, NewClientFromPool, Client.guarded, namespaced_eq_specResolve, cmdSetEx]
    split <;> rfl
  · intro h
    rw [Int.tdiv_eq_ediv h (by norm_num)]
    exact (Rat.floor_intCast_div_natCast d 1000000000).symm

/-- C4 at 1500 ms with no namespace and at 2999999999 ns under a namespace. -/
theorem C4_ttl_truncation_witness :
    sentCommands (SetEx (NewClientFromPool (some (constPool (none, none)))) "k" (.str "v")
        1500000000 [] ()).trace
      = [⟨"SETEX", [.str "k", .int 1, .str "v"]⟩]
    ∧ Int.tdiv 1500000000 1000000000 = ⌊((1500000000 : Int) : ℚ) / 1000000000⌋ :=
  have h := C4_ttl_truncation (constPool (none, none)) "k" (.str "v") 1500000000 [] ()
    (by decide) (by decide)
  ⟨h.1, h.2.1 (by decide)⟩

/-! ## The uninitialized client -/

/-- C5, refuted as stated: `Close` on a nil client, and on a client whose pool is
nil, dereferences a nil pointer instead of returning, and `Pool` on a client
whose pool is nil returns that nil pool; neither has an error result to carry
NotInitialized. -/
theorem C5_close_and_pool_unguarded :
    Close (none : Client Unit TestReply) = ([], Outcome.panicked)
    ∧ Close (some ⟨none⟩ : Client Unit TestReply) = ([], Outcome.panicked)
    ∧ Client.Pool (none : Client Unit TestReply) = Outcome.panicked
    ∧ Client.Pool (some ⟨none⟩ : Client Unit TestReply) = Outcome.returned none :=
  ⟨rfl, rfl, rfl, rfl⟩

/-- C5, amended: every public operation other than `Close` and `Pool` (Ping, Get,
GetBool, GetBytes, GetInt, GetString, Set, SetEx, Exists, Delete, Clear, ClearAll,
GetKeys, GetAllKeys, SetObject, SetObjectEx, GetObject), invoked on a nil client
or on a client whose pool is nil, returns the NotInitialized error, with an
empty trace (no connection borrowed, no command sent, no decoding) and the store
unchanged. -/
theorem C5_uninitialized_client {σ ρ ω : Type} (rg : Redigo ρ) (js : Json ω) (e : Client σ ρ)
    (h : e = none ∨ e = some ⟨none⟩) (key : String) (value : Arg) (object : ω)
    (duration : Int) (S : List String) (fuel : Nat) (s : σ) :
    Ping e s = ⟨[], s, some ErrNotInitialized⟩
    ∧ Get e key S s = ⟨[], s, (none, some ErrNotInitialized)⟩
    ∧ GetBool rg e key S s = ⟨[], s, (false, some ErrNotInitialized)⟩
    ∧ GetBytes rg e key S s = ⟨[], s, ([], some ErrNotInitialized)⟩
    ∧ GetInt rg e key S s = ⟨[], s, (0, some ErrNotInitialized)⟩
    ∧ GetString rg e key S s = ⟨[], s, ("", some ErrNotInitialized)⟩
    ∧ Set e key value S s = ⟨[], s, some ErrNotInitialized⟩
    ∧ SetEx e key value duration S s = ⟨[], s, some ErrNotInitialized⟩
    ∧ Exists rg e key S s = ⟨[], s, (false, some ErrNotInitialized)⟩
    ∧ Delete e key S s = ⟨[], s, some ErrNotInitialized⟩
    ∧ Clear rg fuel e key S s = ⟨[], s, some (some ErrNotInitialized)⟩
    ∧ ClearAll rg fuel e S s = ⟨[], s, some (some ErrNotInitialized)⟩
    ∧ GetKeys rg fuel e key S s = ⟨[], s, some ([], some ErrNotInitialized)⟩
    ∧ GetAllKeys rg fuel e S s = ⟨[], s, some ([], some ErrNotInitialized)⟩
    ∧ SetObject js e key object S s = ⟨[], s, some ErrNotInitialized⟩
    ∧ SetObjectEx js e key object duration S s = ⟨[], s, some ErrNotInitialized⟩
    ∧ GetObject rg js e key object S s = ⟨[], s, (object, some ErrNotInitialized)⟩ := by
  rcases h with h | h <;> subst h <;>
    exact ⟨rfl, rfl, rfl, rfl, rfl, rfl, rfl, rfl, rfl, rfl, rfl, rfl, rfl, rfl, rfl, rfl, rfl⟩

/-- C5 on the nil client and on a client built from a nil pool. -/
theorem C5_uninitialized_client_witness :
    (Ping (none : Client Nat TestReply) 0).result = some ErrNotInitialized
    ∧ (GetKeys testRedigo 5 (NewClientFromPool (none : Option (Pool Nat TestReply))) "*" [] 0).trace
      = [] :=
  ⟨congrArg Run.result
      (C5_uninitialized_client testRedigo (⟨fun _ => ([], none), fun _ o => (o, none)⟩ : Json Unit)
        (none : Client Nat TestReply) (Or.inl rfl) "k" (.str "v") () 0 [] 5 0).1,
    congrArg Run.trace
      (C5_uninitialized_client testRedigo (⟨fun _ => ([], none), fun _ o => (o, none)⟩ : Json Unit)
        (NewClientFromPool (none : Option (Pool Nat TestReply))) (Or.inr rfl) "*" (.str "v") ()
        0 [] 5 0).2.2.2.2.2.2.2.2.2.2.2.2.1⟩

/-! ## Error tags of the single round trip operations -/

theorem errorsIs_Errorf_sentinel (t u : Sentinel) (c : GoError) :
    errorsIs (Errorf (.sentinel t) c) (.sentinel u) = decide (t = u) := by
  simp [Errorf, errorsIs]

theorem errorsIs_Errorf_foreign (t : Sentinel) (c : GoError) (i : Nat) (m : String) :
    errorsIs (Errorf (.sentinel t) c) (.foreign i m) = false := by
  simp [Errorf, errorsIs]

/-- C8, refuted as stated: when the GET round trip fails with the transport error
"connection refused", the error returned by Get has ErrGetFailed as its only
wrapped error; the cause is not in its chain (`errors.Is` on it is false) and only
its text survives, inside the message. -/
theorem C8_cause_not_wrapped :
    (Get (NewClientFromPool (some (constPool (none, some errRefused)))) "k" [] ()).result.2
      = some (Errorf ErrGetFailed errRefused)
    ∧ errorsIs (Errorf ErrGetFailed errRefused) errRefused = false
    ∧ errorsUnwrap (Errorf ErrGetFailed errRefused) = some ErrGetFailed
    ∧ errorsUnwrap ErrGetFailed = none
    ∧ (Errorf ErrGetFailed errRefused).Error
      = "could not 'GET' specified key: dial tcp: connection refused" := by
  decide

/-- C8, amended: on an initialized client, when the single round trip of Ping,
Get, Set, SetEx, Exists or Delete fails with error c, the operation returns
`fmt.Errorf("%w: %v", tag, c)` for its own tag (PingFailed, GetFailed, SetFailed,
SetExFailed, KeyNotFound, DelFailed); that error matches under `errors.Is` its
own tag and no other error variable, unwraps to the tag, and keeps of c only the
text, as the end of its message: c is not wrapped, and a collaborator's error c
is not matched by `errors.Is`.  When the round trip succeeds no error is
returned; for Exists, a reply that `redis.Bool` reads as b without error gives b
and no error. -/
theorem C8_error_tags {σ ρ : Type} (rg : Redigo ρ) (p : Pool σ ρ) (key : String)
    (value : Arg) (duration : Int) (S : List String) (s : σ) :
    (∀ c, (p.Do s ⟨"PING", []⟩).1.2 = some c →
        (Ping (NewClientFromPool (some p)) s).result = some (Errorf ErrPingFailed c))
    ∧ (∀ c, (p.Do s ⟨"GET", [.str (specResolve key S)]⟩).1.2 = some c →
        (Get (NewClientFromPool (some p)) key S s).result
          = (none, some (Errorf ErrGetFailed c)))
    ∧ (∀ c, (p.Do s ⟨"SET", [.str (specResolve key S), value]⟩).1.2 = some c →
        (Set (NewClientFromPool (some p)) key value S s).result
          = some (Errorf ErrSetFailed c))
    ∧ (∀ c, (p.Do s ⟨"SETEX", [.str (specResolve key S), .int (wholeSeconds duration),
            value]⟩).1.2 = some c →
        (SetEx (NewClientFromPool (some p)) key value duration S s).result
          = some (Errorf ErrSetExFailed c))
    ∧ (∀ c, (p.Do s ⟨"EXISTS", [.str (specResolve key S)]⟩).1.2 = some c →
        (Exists rg (NewClientFromPool (some p)) key S s).result
          = (false, some (Errorf ErrKeyNotFound c)))
    ∧ (∀ c, (p.Do s ⟨"DEL", [.str (specResolve key S)]⟩).1.2 = some c →
        (Delete (NewClientFromPool (some p)) key S s).result = some (Errorf ErrDelFailed c))
    ∧ ((p.Do s ⟨"PING", []⟩).1.2 = none →
        (Ping (NewClientFromPool (some p)) s).result = none)
    ∧ ((p.Do s ⟨"GET", [.str (specResolve key S)]⟩).1.2 = none →
        (Get (NewClientFromPool (some p)) key S s).result
          = ((p.Do s ⟨"GET", [.str (specResolve key S)]⟩).1.1, none))
    ∧ ((p.Do s ⟨"SET", [.str (specResolve key S), value]⟩).1.2 = none →
        (Set (NewClientFromPool (some p)) key value S s).result = none)
    ∧ ((p.Do s ⟨"SETEX", [.str (specResolve key S), .int (wholeSeconds duration),
            value]⟩).1.2 = none →
        (SetEx (NewClientFromPool (some p)) key value duration S s).result = none)
    ∧ (∀ b, redisBool rg (p.Do s ⟨"EXISTS", [.str (specResolve key S)]⟩).1 = (b, none) →
        (Exists rg (NewClientFromPool (some p)) key S s).result = (b, none))
    ∧ ((p.Do s ⟨"DEL", [.str (specResolve key S)]⟩).1.2 = none →
        (Delete (NewClientFromPool (some p)) key S s).result = none)
    ∧ (∀ t u c, errorsIs (Errorf (.sentinel t) c) (.sentinel u) = decide (t = u))
    ∧ (∀ t c, errorsUnwrap (Errorf (.sentinel t) c) = some (.sentinel t)
        ∧ (Errorf (.sentinel t) c).Error = t.text ++ ": " ++ c.Error)
    ∧ (∀ t c i m, errorsIs (Errorf (.sentinel t) c) (.foreign i m) = false) := by
  refine ⟨?_, ?_, ?_, ?_, ?_, ?_, ?_, ?_, ?_, ?_, ?_, ?_, errorsIs_Errorf_sentinel,
    fun _ _ => ⟨rfl, rfl⟩, errorsIs_Errorf_foreign⟩
  · intro c h
    simp only [Ping, NewClientFromPool, Client.guarded, cmdPing, h]
  · intro c h
    simp only [Get, NewClientFromPool, Client.guarded, cmdGet, namespaced_eq_specResolve, h]
  · intro c h
    simp only [Set, NewClientFromPool, Client.guarded, cmdSet, namespaced_eq_specResolve, h]
  · intro c h
    simp only [SetEx, NewClientFromPool, Client.guarded, cmdSetEx, namespaced_eq_specResolve, h]
  · intro c h
    simp only [Exists, NewClientFromPool, Client.guarded, cmdExits, namespaced_eq_specResolve,
      redisBool, h]
  · intro c h
    simp only [Delete, NewClientFromPool, Client.guarded, cmdDel, namespaced_eq_specResolve, h]
  · intro h
    simp only [Ping, NewClientFromPool, Client.guarded, cmdPing, h]
  · intro h
    simp only [Get, NewClientFromPool, Client.guarded, cmdGet, namespaced_eq_specResolve, h]
  · intro h
    simp only [Set, NewClientFromPool, Client.guarded, cmdSet, namespaced_eq_specResolve, h]
  · intro h
    simp only [SetEx, NewClientFromPool, Client.guarded, cmdSetEx, namespaced_eq_specResolve, h]
  · intro b h
    simp only [Exists, NewClientFromPool, Client.guarded, cmdExits, namespaced_eq_specResolve, h]
  · intro h
    simp only [Delete, NewClientFromPool, Client.guarded, cmdDel, namespaced_eq_specResolve, h]

/-- C8 on a store that refuses every round trip (Delete) and on a store that
answers EXISTS with the integer 0 (an absent key). -/
theorem C8_error_tags_witness :
    (Delete (NewClientFromPool (some (constPool (none, some errRefused)))) "k" ["a"] ()).result
      = some (Errorf ErrDelFailed errRefused)
    ∧ (Exists testRedigo (NewClientFromPool (some (constPool (some (.int 0), none)))) "k" []
        ()).result = (false, none) :=
  ⟨(C8_error_tags testRedigo (constPool (none, some errRefused)) "k" (.str "v") 0 ["a"]
      ()).2.2.2.2.2.1 errRefused rfl,
    (C8_error_tags testRedigo (constPool (some (.int 0), none)) "k" (.str "v") 0 []
      ()).2.2.2.2.2.2.2.2.2.2.1 false rfl⟩

/-! ## GetObject -/

theorem Get_trace_no_Unmarshal {σ ρ : Type} (e : Client σ ρ) (key : String)
    (S : List String) (s : σ) (raw : List UInt8) :
    Event.Unmarshal raw ∉ (Get e key S s).trace := by
  unfold Get
  split
  · simp
  · dsimp only
    split <;> simp

/-- C9: GetObject returns the error of the byte retrieval unchanged and attempts
no decoding when the retrieval fails; when the retrieval succeeds it decodes the
retrieved bytes once, returns exactly ErrMarshalFailed if the decoding fails and
no error if it succeeds.  ErrMarshalFailed matches no other error variable
under `errors.Is` and wraps nothing. -/
theorem C9_getobject_decode {σ ρ ω : Type} (rg : Redigo ρ) (js : Json ω) (e : Client σ ρ)
    (key : String) (obj : ω) (S : List String) (s : σ) :
    (∀ err, (GetBytes rg e key S s).result.2 = some err →
        (GetObject rg js e key obj S s).result = (obj, some err)
        ∧ (GetObject rg js e key obj S s).trace = (GetBytes rg e key S s).trace
        ∧ ∀ raw, Event.Unmarshal raw ∉ (GetObject rg js e key obj S s).trace)
    ∧ ((GetBytes rg e key S s).result.2 = none →
        (GetObject rg js e key obj S s).trace
          = (GetBytes rg e key S s).trace ++ [.Unmarshal (GetBytes rg e key S s).result.1]
        ∧ (∀ derr, (js.Unmarshal (GetBytes rg e key S s).result.1 obj).2 = some derr →
            (GetObject rg js e key obj S s).result.2 = some ErrMarshalFailed)
        ∧ ((js.Unmarshal (GetBytes rg e key S s).result.1 obj).2 = none →
            (GetObject rg js e key obj S s).result
              = ((js.Unmarshal (GetBytes rg e key S s).result.1 obj).1, none)))
    ∧ (∀ t, errorsIs ErrMarshalFailed (.sentinel t) = decide (t = Sentinel.MarshalFailed))
    ∧ (∀ i m, errorsIs ErrMarshalFailed (.foreign i m) = false)
    ∧ errorsUnwrap ErrMarshalFailed = none
    ∧ ErrMarshalFailed.Error = "marshal binary to object failed" := by
  refine ⟨?_, ?_, ?_, ?_, rfl, rfl⟩
  · intro err h
    have hg : (GetObject rg js e key obj S s)
        = ⟨(GetBytes rg e key S s).trace, (GetBytes rg e key S s).store, (obj, some err)⟩ := by
      simp only [GetObject, h]
    rw [hg]
    exact ⟨rfl, rfl, fun raw => Get_trace_no_Unmarshal e key S s raw⟩
  · intro h
    refine ⟨?_, ?_, ?_⟩
    · simp only [GetObject, h]
      split <;> rfl
    · intro derr hd
      simp only [GetObject, h, hd]
    · intro hd
      simp only [GetObject, h, hd]
  · intro t
    cases t <;> rfl
  · intro i m
    simp [ErrMarshalFailed, errorsIs]

/-- C9 on a store holding an empty value, which the codec rejects, and on a
store that refuses the round trip. -/
theorem C9_getobject_decode_witness :
    (GetObject testRedigo testJson (NewClientFromPool (some (constPool (some (.bulk []), none))))
        "k" [7] [] ()).result.2 = some ErrMarshalFailed
    ∧ (GetObject testRedigo testJson (NewClientFromPool (some (constPool (none, some errRefused))))
        "k" [7] [] ()).result = ([7], some (Errorf ErrGetFailed errRefused)) :=
  ⟨(C9_getobject_decode testRedigo testJson
      (NewClientFromPool (some (constPool (some (.bulk []), none)))) "k" [7] [] ()).2.1 rfl
      |>.2.1 (.foreign 4 "unexpected end of JSON input") rfl,
    ((C9_getobject_decode testRedigo testJson
      (NewClientFromPool (some (constPool (none, some errRefused)))) "k" [7] [] ()).1
      (Errorf ErrGetFailed errRefused) rfl).1⟩

/-! ## The scan loops on a store that serves finitely many pages -/

theorem scanPage_store {σ ρ : Type} (rg : Redigo ρ) (p : Pool σ ρ) (ns : String) (cursor : Int)
    (dest : List String) (s : σ) :
    (scanPage rg p ns cursor dest s).2 = (p.Do s (scanCommand cursor ns)).2 := by
  unfold scanPage
  dsimp only
  split
  · rfl
  · split <;> rfl

theorem scanPage_some {σ ρ : Type} (rg : Redigo ρ) (p : Pool σ ρ) (ns : String) (cursor : Int)
    (dest : List String) (s : σ) (pg : Int × List String)
    (h : (scanPage rg p ns cursor dest s).1 = some pg) :
    (redisValues rg (p.Do s (scanCommand cursor ns)).1).2 = none
    ∧ (rg.convScan (redisValues rg (p.Do s (scanCommand cursor ns)).1).1 cursor dest).2 = none
    ∧ (rg.convScan (redisValues rg (p.Do s (scanCommand cursor ns)).1).1 cursor dest).1 = pg := by
  unfold scanPage at h
  dsimp only at h
  split at h
  · simp at h
  · next hv =>
    split at h
    · simp at h
    · next hd =>
      simp only [Option.some.injEq] at h
      exact ⟨hv, hd, h⟩

theorem GetKeys_loop_pages {σ ρ : Type} (rg : Redigo ρ) (p : Pool σ ρ) (ns : String)
    (pages : List (Int × List String)) :
    ∀ (cursor : Int) (dest keys : List String) (s : σ) (fuel : Nat),
      ServesPages rg p ns pages cursor dest s → pages.length ≤ fuel →
      (GetKeys.loop rg p ns fuel cursor dest keys s).result = some (keys ++ pageKeys pages, none)
      ∧ (GetKeys.loop rg p ns fuel cursor dest keys s).trace = scanRoundTrips ns cursor pages := by
  induction pages with
  | nil => intro _ _ _ _ _ h; exact absurd h (by simp [ServesPages])
  | cons pg rest ih =>
    intro cursor dest keys s fuel h hf
    obtain ⟨hp, hrest⟩ := h
    obtain ⟨hv, hd, he⟩ := scanPage_some rg p ns cursor dest s pg hp
    cases fuel with
    | zero => simp at hf
    | succ fuel =>
      rcases hrest with ⟨h0, hnil⟩ | ⟨hne, hserve⟩
      · subst hnil
        simp [GetKeys.loop, hv, hd, he, h0, pageKeys, scanRoundTrips]
      · rw [scanPage_store] at hserve
        have hf1 : rest.length ≤ fuel := by simpa using hf
        obtain ⟨h1, h2⟩ := ih pg.1 pg.2 (keys ++ pg.2) _ fuel hserve hf1
        simp only [GetKeys.loop, hv, hd, he, hne, if_false, h1, h2]
        simp [pageKeys, scanRoundTrips]

theorem sentCommands_append (xs ys : List Event) :
    sentCommands (xs ++ ys) = sentCommands xs ++ sentCommands ys := by
  induction xs with
  | nil => rfl
  | cons x xs ih => cases x <;> simp [sentCommands, ih]

theorem sentCommands_scanRoundTrips_length (ns : String) (pages : List (Int × List String)) :
    ∀ cursor, (sentCommands (scanRoundTrips ns cursor pages)).length = pages.length := by
  induction pages with
  | nil => intro _; rfl
  | cons pg rest ih => intro cursor; simp [scanRoundTrips, sentCommands, ih]

/-- C1: when the successive SCAN replies of the store, from cursor 0, are the
pages (c1, b1), ..., (ck, bk) with c1..c(k-1) non-zero, ck = 0 and no failure,
GetKeys run for k or more loop iterations returns b1 ++ ... ++ bk with no error,
and its trace is: borrow, k successful SCANs (the first with cursor 0, each next
with the cursor of the page before), release. -/
theorem C1_getkeys_scan_completeness {σ ρ : Type} (rg : Redigo ρ) (p : Pool σ ρ)
    (pattern : String) (S : List String) (pages : List (Int × List String)) (s : σ) (fuel : Nat)
    (h : ServesPages rg p (specResolve pattern S) pages 0 [] s) (hf : pages.length ≤ fuel) :
    (GetKeys rg fuel (NewClientFromPool (some p)) pattern S s).result
      = some (pageKeys pages, none)
    ∧ (GetKeys rg fuel (NewClientFromPool (some p)) pattern S s).trace
      = .borrow :: scanRoundTrips (specResolve pattern S) 0 pages ++ [.release]
    ∧ (sentCommands (GetKeys rg fuel (NewClientFromPool (some p)) pattern S s).trace).length
      = pages.length := by
  obtain ⟨h1, h2⟩ := GetKeys_loop_pages rg p _ pages 0 [] [] s fuel h hf
  have ht : (GetKeys rg fuel (NewClientFromPool (some p)) pattern S s).trace
      = .borrow :: scanRoundTrips (specResolve pattern S) 0 pages ++ [.release] := by
    simp only [GetKeys, NewClientFromPool, Client.guarded, namespaced_eq_specResolve, h1, h2]
    rfl
  refine ⟨?_, ht, ?_⟩
  · simp only [GetKeys, NewClientFromPool, Client.guarded, namespaced_eq_specResolve, h1]
    rfl
  · rw [ht]
    have := sentCommands_scanRoundTrips_length (specResolve pattern S) pages 0
    rw [show Event.borrow :: scanRoundTrips (specResolve pattern S) 0 pages ++ [Event.release]
      = [Event.borrow] ++ (scanRoundTrips (specResolve pattern S) 0 pages ++ [Event.release])
      from rfl, sentCommands_append, sentCommands_append]
    simp [sentCommands, this]

/-- C1 on a store with the pages (7, [a, b]) and (0, [c]). -/
theorem C1_getkeys_scan_completeness_witness :
    (GetKeys testRedigo 2 (NewClientFromPool (some twoPagePool)) "*" [] 0).result
      = some (["a", "b", "c"], none)
    ∧ (sentCommands (GetKeys testRedigo 2 (NewClientFromPool (some twoPagePool)) "*" []
        0).trace).length = 2 :=
  have h := C1_getkeys_scan_completeness testRedigo twoPagePool "*" []
    [(7, ["a", "b"]), (0, ["c"])] 0 2
    ⟨rfl, Or.inr ⟨by decide, rfl, Or.inl ⟨rfl, rfl⟩⟩⟩ (by decide)
  ⟨h.1, h.2.2⟩

theorem unlinked_nil {σ ρ : Type} (p : Pool σ ρ) (s : σ) : unlinked p [] s = some s := rfl

theorem unlinked_cons_some {σ ρ : Type} (p : Pool σ ρ) (k : String) (ks : List String)
    (s s1 : σ) (h : unlinked p (k :: ks) s = some s1) :
    (p.Do s (unlinkCommand (k :: ks))).1.2 = none
    ∧ (p.Do s (unlinkCommand (k :: ks))).2 = s1 := by
  unfold unlinked at h
  simp only [List.length_cons, gt_iff_lt, Nat.zero_lt_succ, if_true] at h
  split at h
  · simp at h
  · next hn => exact ⟨hn, by simpa using h⟩

theorem Clear_loop_pages {σ ρ : Type} (rg : Redigo ρ) (p : Pool σ ρ) (ns : String)
    (pages : List (Int × List String)) :
    ∀ (cursor : Int) (dest : List String) (s : σ) (fuel : Nat),
      ServesClearPages rg p ns pages cursor dest s → pages.length ≤ fuel →
      (Clear.loop rg p ns fuel cursor dest s).result = some none
      ∧ (Clear.loop rg p ns fuel cursor dest s).trace = clearRoundTrips ns cursor pages := by
  induction pages with
  | nil => intro _ _ _ _ h; exact absurd h (by simp [ServesClearPages])
  | cons pg rest ih =>
    intro cursor dest s fuel h hf
    obtain ⟨hp, s1, hu, hrest⟩ := h
    obtain ⟨hv, hd, he⟩ := scanPage_some rg p ns cursor dest s pg hp
    rw [scanPage_store] at hu
    cases fuel with
    | zero => simp at hf
    | succ fuel =>
      have hf1 : rest.length ≤ fuel := by simpa using hf
      obtain ⟨c1, ks⟩ := pg
      cases ks with
      | nil =>
        rw [unlinked_nil] at hu
        simp only [Option.some.injEq] at hu
        subst hu
        rcases hrest with ⟨h0, hnil⟩ | ⟨hne, hserve⟩
        · subst hnil
          simp only at h0
          simp [Clear.loop, hv, hd, he, h0, clearRoundTrips]
        · obtain ⟨h1, h2⟩ := ih c1 [] _ fuel hserve hf1
          simp only at hne
          simp only [Clear.loop, hv, hd, he, hne, if_false, h1, h2]
          simp [clearRoundTrips]
      | cons k ks =>
        obtain ⟨hun, hus⟩ := unlinked_cons_some p k ks _ s1 hu
        rcases hrest with ⟨h0, hnil⟩ | ⟨hne, hserve⟩
        · subst hnil
          simp only at h0
          simp [Clear.loop, hv, hd, he, h0, hun, clearRoundTrips]
        · rw [← hus] at hserve
          obtain ⟨h1, h2⟩ := ih c1 (k :: ks) _ fuel hserve hf1
          simp only at hne
          simp only [Clear.loop, hv, hd, he, hne, if_false, h1, h2, hun]
          simp [clearRoundTrips]

theorem pageKeys_cons (pg : Int × List String) (rest : List (Int × List String)) :
    pageKeys (pg :: rest) = pg.2 ++ pageKeys rest := by
  simp [pageKeys]

theorem unlinkedArgs_clearRoundTrips (ns : String) (pages : List (Int × List String)) :
    ∀ cursor, unlinkedArgs (clearRoundTrips ns cursor pages) = (pageKeys pages).map Arg.str := by
  induction pages with
  | nil => intro _; rfl
  | cons pg rest ih =>
    intro cursor
    obtain ⟨c1, ks⟩ := pg
    have hs : (cmdScan == cmdUnLink) = false := by decide
    have hu : (cmdUnLink == cmdUnLink) = true := by decide
    have ih1 := ih c1
    rw [pageKeys_cons, List.map_append, ← ih1]
    unfold unlinkedArgs
    cases ks with
    | nil =>
      simp only [clearRoundTrips, if_true, List.nil_append, sentCommands, scanCommand,
        List.filter_cons, hs]
      simp
    | cons k ks =>
      simp only [clearRoundTrips, List.cons_ne_nil, if_false, List.cons_append, List.nil_append,
        sentCommands, scanCommand, unlinkCommand, List.filter_cons, hs, hu]
      simp

/-- C10: when the successive SCAN replies of the store to Clear, from cursor 0,
are the pages (c1, b1), ..., (ck, bk) with ck the first zero cursor and no round
trip failing, Clear run for k or more loop iterations returns no error, and its
trace is: borrow, then per page in order one SCAN with the previous cursor
followed by one UNLINK of exactly the keys of that page when it has keys and by
nothing when it has none, then release; the keys passed to UNLINK are exactly
b1 ++ ... ++ bk. -/
theorem C10_clear_batch_by_batch {σ ρ : Type} (rg : Redigo ρ) (p : Pool σ ρ)
    (pattern : String) (S : List String) (pages : List (Int × List String)) (s : σ) (fuel : Nat)
    (h : ServesClearPages rg p (specResolve pattern S) pages 0 [] s)
    (hf : pages.length ≤ fuel) :
    (Clear rg fuel (NewClientFromPool (some p)) pattern S s).result = some none
    ∧ (Clear rg fuel (NewClientFromPool (some p)) pattern S s).trace
      = .borrow :: clearRoundTrips (specResolve pattern S) 0 pages ++ [.release]
    ∧ unlinkedArgs (Clear rg fuel (NewClientFromPool (some p)) pattern S s).trace
      = (pageKeys pages).map Arg.str := by
  obtain ⟨h1, h2⟩ := Clear_loop_pages rg p _ pages 0 [] s fuel h hf
  have ht : (Clear rg fuel (NewClientFromPool (some p)) pattern S s).trace
      = .borrow :: clearRoundTrips (specResolve pattern S) 0 pages ++ [.release] := by
    simp only [Clear, NewClientFromPool, Client.guarded, namespaced_eq_specResolve, h1, h2]
    rfl
  refine ⟨?_, ht, ?_⟩
  · simp only [Clear, NewClientFromPool, Client.guarded, namespaced_eq_specResolve, h1]
  · rw [ht, ← unlinkedArgs_clearRoundTrips (specResolve pattern S) pages 0]
    unfold unlinkedArgs
    rw [show Event.borrow :: clearRoundTrips (specResolve pattern S) 0 pages ++ [Event.release]
      = [Event.borrow] ++ (clearRoundTrips (specResolve pattern S) 0 pages ++ [Event.release])
      from rfl, sentCommands_append, sentCommands_append]
    simp [sentCommands]

/-- C10 on a store with the pages (7, [a, b]), (3, []) and (0, [c]). -/
theorem C10_clear_batch_by_batch_witness :
    sentCommands (Clear testRedigo 3 (NewClientFromPool (some clearPool)) "*" [] 0).trace
      = [⟨"SCAN", [.int 0, .str "MATCH", .str "*"]⟩, ⟨"UNLINK", [.str "a", .str "b"]⟩,
         ⟨"SCAN", [.int 7, .str "MATCH", .str "*"]⟩, ⟨"SCAN", [.int 3, .str "MATCH", .str "*"]⟩,
         ⟨"UNLINK", [.str "c"]⟩]
    ∧ (Clear testRedigo 3 (NewClientFromPool (some clearPool)) "*" [] 0).result = some none :=
  have h := C10_clear_batch_by_batch testRedigo clearPool "*" []
    [(7, ["a", "b"]), (3, []), (0, ["c"])] 0 3
    ⟨rfl, 2, rfl, Or.inr ⟨by decide, rfl, 3, rfl, Or.inr ⟨by decide, rfl, 5, rfl,
      Or.inl ⟨rfl, rfl⟩⟩⟩⟩ (by decide)
  ⟨by rw [h.2.1]; decide, h.1⟩

/-! ## The scan loops on a store that never returns cursor 0 -/

theorem scanCount_scan_cons (cursor : Int) (ns : String) (failed : Bool) (rest : List Event) :
    scanCount (.Do (scanCommand cursor ns) failed :: rest) = scanCount rest + 1 := by
  have hs : (cmdScan == cmdScan) = true := by decide
  simp [scanCount, sentCommands, scanCommand, hs]

theorem scanCount_unlink_cons (keys : List String) (failed : Bool) (rest : List Event) :
    scanCount (.Do (unlinkCommand keys) failed :: rest) = scanCount rest := by
  have hs : (cmdUnLink == cmdScan) = false := by decide
  simp [scanCount, sentCommands, unlinkCommand, hs]

theorem scanCount_borrow_cons (rest : List Event) :
    scanCount (.borrow :: rest) = scanCount rest := rfl

theorem GetKeys_loop_never {σ ρ : Type} (rg : Redigo ρ) (p : Pool σ ρ) (ns : String)
    (h : NeverConverges rg p ns) :
    ∀ (fuel : Nat) (cursor : Int) (dest keys : List String) (s : σ),
      (GetKeys.loop rg p ns fuel cursor dest keys s).result = none
      ∧ scanCount (GetKeys.loop rg p ns fuel cursor dest keys s).trace = fuel := by
  intro fuel
  induction fuel with
  | zero => intro _ _ _ _; exact ⟨rfl, rfl⟩
  | succ fuel ih =>
    intro cursor dest keys s
    obtain ⟨pg, hp, hne⟩ := h cursor dest s
    obtain ⟨hv, hd, he⟩ := scanPage_some rg p ns cursor dest s pg hp
    obtain ⟨h1, h2⟩ := ih pg.1 pg.2 (keys ++ pg.2) (p.Do s (scanCommand cursor ns)).2
    simp only [GetKeys.loop, hv, hd, he, hne, if_false, h1, scanCount_scan_cons, h2, and_self]

theorem Clear_loop_never {σ ρ : Type} (rg : Redigo ρ) (p : Pool σ ρ) (ns : String)
    (h : NeverConverges rg p ns) (hu : UnlinkNeverFails p) :
    ∀ (fuel : Nat) (cursor : Int) (dest : List String) (s : σ),
      (Clear.loop rg p ns fuel cursor dest s).result = none
      ∧ scanCount (Clear.loop rg p ns fuel cursor dest s).trace = fuel := by
  intro fuel
  induction fuel with
  | zero => intro _ _ _; exact ⟨rfl, rfl⟩
  | succ fuel ih =>
    intro cursor dest s
    obtain ⟨pg, hp, hne⟩ := h cursor dest s
    obtain ⟨hv, hd, he⟩ := scanPage_some rg p ns cursor dest s pg hp
    by_cases hk : pg.2.length > 0
    · have hun := hu pg.2 (p.Do s (scanCommand cursor ns)).2
      obtain ⟨h1, h2⟩ := ih pg.1 pg.2
        (p.Do (p.Do s (scanCommand cursor ns)).2 (unlinkCommand pg.2)).2
      simp only [Clear.loop, hv, hd, he, hne, if_false, hk, if_true, hun, h1,
        scanCount_scan_cons, scanCount_unlink_cons, h2, and_self]
    · obtain ⟨h1, h2⟩ := ih pg.1 pg.2 (p.Do s (scanCommand cursor ns)).2
      simp only [Clear.loop, hv, hd, he, hne, if_false, hk, h1, scanCount_scan_cons, h2,
        and_self]

theorem GetKeys_never {σ ρ : Type} (rg : Redigo ρ) (p : Pool σ ρ) (pattern : String)
    (S : List String) (h : NeverConverges rg p (specResolve pattern S)) (fuel : Nat) (s : σ) :
    (GetKeys rg fuel (NewClientFromPool (some p)) pattern S s).result = none
    ∧ scanCount (GetKeys rg fuel (NewClientFromPool (some p)) pattern S s).trace = fuel := by
  obtain ⟨h1, h2⟩ := GetKeys_loop_never rg p _ h fuel 0 [] [] s
  simp only [GetKeys, NewClientFromPool, Client.guarded, namespaced_eq_specResolve, h1,
    Option.isSome_none, Bool.false_eq_true, if_false, List.append_nil, scanCount_borrow_cons, h2,
    and_self]

theorem Clear_never {σ ρ : Type} (rg : Redigo ρ) (p : Pool σ ρ) (pattern : String)
    (S : List String) (h : NeverConverges rg p (specResolve pattern S))
    (hu : UnlinkNeverFails p) (fuel : Nat) (s : σ) :
    (Clear rg fuel (NewClientFromPool (some p)) pattern S s).result = none
    ∧ scanCount (Clear rg fuel (NewClientFromPool (some p)) pattern S s).trace = fuel := by
  obtain ⟨h1, h2⟩ := Clear_loop_never rg p _ h hu fuel 0 [] s
  simp only [Clear, NewClientFromPool, Client.guarded, namespaced_eq_specResolve, h1,
    Option.isSome_none, Bool.false_eq_true, if_false, List.append_nil, scanCount_borrow_cons, h2,
    and_self]

theorem stuckPool_never (ns : String) : NeverConverges testRedigo stuckPool ns :=
  fun _ _ _ => ⟨(1, ["a"]), rfl, by decide⟩

theorem stuckPool_unlink : UnlinkNeverFails stuckPool := fun _ _ => rfl

/-- C6, refuted as stated: on a store that answers every SCAN with cursor 1 and
never fails, neither GetKeys nor Clear has returned after any number of loop
iterations; no error is ever produced. -/
theorem C6_stuck_store_never_returns :
    (¬ ∃ fuel, (GetKeys testRedigo fuel (NewClientFromPool (some stuckPool)) "*" []
        ()).result.isSome = true)
    ∧ (¬ ∃ fuel, (Clear testRedigo fuel (NewClientFromPool (some stuckPool)) "*" []
        ()).result.isSome = true) := by
  constructor
  · rintro ⟨fuel, hf⟩
    rw [(GetKeys_never testRedigo stuckPool "*" [] (stuckPool_never _) fuel ()).1] at hf
    simp at hf
  · rintro ⟨fuel, hf⟩
    rw [(Clear_never testRedigo stuckPool "*" [] (stuckPool_never _) stuckPool_unlink fuel
      ()).1] at hf
    simp at hf

/-- C6, amended: on a store that never fails a SCAN and never answers one with
cursor 0 (and, for Clear, never fails an UNLINK), GetKeys and Clear keep
iterating: after any number n of loop iterations they have sent n SCAN commands
and have not returned, neither keys nor an error. -/
theorem C6_scan_non_convergence {σ ρ : Type} (rg : Redigo ρ) (p : Pool σ ρ) (pattern : String)
    (S : List String) (h : NeverConverges rg p (specResolve pattern S)) (n : Nat) (s : σ) :
    ((GetKeys rg n (NewClientFromPool (some p)) pattern S s).result = none
      ∧ scanCount (GetKeys rg n (NewClientFromPool (some p)) pattern S s).trace = n)
    ∧ (UnlinkNeverFails p →
        (Clear rg n (NewClientFromPool (some p)) pattern S s).result = none
        ∧ scanCount (Clear rg n (NewClientFromPool (some p)) pattern S s).trace = n) :=
  ⟨GetKeys_never rg p pattern S h n s, fun hu => Clear_never rg p pattern S h hu n s⟩

/-- C6 on the store that always answers cursor 1, after 4 iterations. -/
theorem C6_scan_non_convergence_witness :
    (GetKeys testRedigo 4 (NewClientFromPool (some stuckPool)) "*" [] ()).result = none
    ∧ scanCount (Clear testRedigo 4 (NewClientFromPool (some stuckPool)) "*" [] ()).trace = 4 :=
  have h := C6_scan_non_convergence testRedigo stuckPool "*" []
    (fun _ _ _ => ⟨(1, ["a"]), rfl, by decide⟩) 4 ()
  ⟨h.1.1, (h.2 (fun _ _ => rfl)).2⟩

/-! ## The scan loops on a failing round trip -/

theorem GetKeys_loop_failure {σ ρ : Type} (rg : Redigo ρ) (p : Pool σ ρ) (ns : String) :
    ∀ (fuel : Nat) (cursor : Int) (dest keys : List String) (s : σ) (j : Nat) (cmd : Command),
      (GetKeys.loop rg p ns fuel cursor dest keys s).trace[j]? = some (.Do cmd true) →
      (GetKeys.loop rg p ns fuel cursor dest keys s).trace.drop (j + 1) = []
      ∧ ∃ c, (GetKeys.loop rg p ns fuel cursor dest keys s).result
          = some ([], some (Errorf ErrScanFailed c)) := by
  intro fuel
  induction fuel with
  | zero => intro _ _ _ _ j cmd h; simp [GetKeys.loop] at h
  | succ fuel ih =>
    intro cursor dest keys s j cmd h
    unfold GetKeys.loop at h ⊢
    dsimp only at h ⊢
    split at h
    · next c hv =>
      try simp only [hv]
      cases j with
      | zero => exact ⟨rfl, c, rfl⟩
      | succ j => simp at h
    · next hv =>
      try simp only [hv]
      split at h
      · next c hd =>
        try simp only [hd]
        cases j with
        | zero => exact ⟨rfl, c, rfl⟩
        | succ j => simp at h
      · next hd =>
        try simp only [hd]
        split at h
        · cases j with
          | zero => simp at h
          | succ j => simp at h
        · next hne =>
          try simp only [hne, if_false]
          cases j with
          | zero => simp at h
          | succ j =>
            simp only [List.getElem?_cons_succ] at h
            exact ih _ _ _ _ j cmd h

theorem Clear_loop_failure {σ ρ : Type} (rg : Redigo ρ) (p : Pool σ ρ) (ns : String) :
    ∀ (fuel : Nat) (cursor : Int) (dest : List String) (s : σ) (j : Nat) (cmd : Command),
      (Clear.loop rg p ns fuel cursor dest s).trace[j]? = some (.Do cmd true) →
      (Clear.loop rg p ns fuel cursor dest s).trace.drop (j + 1) = []
      ∧ ∃ c, (Clear.loop rg p ns fuel cursor dest s).result
          = some (some (Errorf ErrClearFailed c)) := by
  intro fuel
  induction fuel with
  | zero => intro _ _ _ j cmd h; simp [Clear.loop] at h
  | succ fuel ih =>
    intro cursor dest s j cmd h
    unfold Clear.loop at h ⊢
    dsimp only at h ⊢
    split at h
    · next c hv =>
      try simp only [hv]
      cases j with
      | zero => exact ⟨rfl, c, rfl⟩
      | succ j => simp at h
    · next hv =>
      try simp only [hv]
      split at h
      · next c hd =>
        try simp only [hd]
        cases j with
        | zero => exact ⟨rfl, c, rfl⟩
        | succ j => simp at h
      · next hd =>
        try simp only [hd]
        split at h
        · next hk =>
          try simp only [hk, if_true]
          split at h
          · next c hu =>
            try simp only [hu]
            match j, h with
            | 0, h => simp at h
            | 1, _ => exact ⟨rfl, c, rfl⟩
            | j + 2, h => simp at h
          · next hu =>
            try simp only [hu]
            split at h
            · match j, h with
              | 0, h => simp at h
              | 1, h => simp at h
              | j + 2, h => simp at h
            · next hne =>
              try simp only [hne, if_false]
              match j, h with
              | 0, h => simp at h
              | 1, h => simp at h
              | j + 2, h =>
                simp only [List.getElem?_cons_succ] at h
                exact ih _ _ _ j cmd h
        · next hk =>
          try simp only [hk, if_false]
          split at h
          · cases j with
            | zero => simp at h
            | succ j => simp at h
          · next hne =>
            try simp only [hne, if_false]
            cases j with
            | zero => simp at h
            | succ j =>
              simp only [List.getElem?_cons_succ] at h
              exact ih _ _ _ j cmd h

theorem Clear_loop_commands {σ ρ : Type} (rg : Redigo ρ) (p : Pool σ ρ) (ns : String) :
    ∀ (fuel : Nat) (cursor : Int) (dest : List String) (s : σ),
      ∀ c ∈ sentCommands (Clear.loop rg p ns fuel cursor dest s).trace,
        c.name = "SCAN" ∨ c.name = "UNLINK" := by
  intro fuel
  induction fuel with
  | zero => intro _ _ _ c hc; simp [Clear.loop, sentCommands] at hc
  | succ fuel ih =>
    intro cursor dest s c hc
    unfold Clear.loop at hc
    dsimp only at hc
    have hs : ∀ cur, (scanCommand cur ns).name = "SCAN" := fun _ => rfl
    have hu : ∀ ks, (unlinkCommand ks).name = "UNLINK" := fun _ => rfl
    split at hc
    · simp only [sentCommands, List.mem_singleton] at hc
      exact Or.inl (hc ▸ hs _)
    · split at hc
      · simp only [sentCommands, List.mem_singleton] at hc
        exact Or.inl (hc ▸ hs _)
      · split at hc
        · split at hc
          · simp only [sentCommands, List.mem_cons, List.mem_singleton, List.not_mem_nil,
              or_false] at hc
            rcases hc with hc | hc
            · exact Or.inl (hc ▸ hs _)
            · exact Or.inr (hc ▸ hu _)
          · split at hc
            · simp only [sentCommands, List.mem_cons, List.mem_singleton, List.not_mem_nil,
                or_false] at hc
              rcases hc with hc | hc
              · exact Or.inl (hc ▸ hs _)
              · exact Or.inr (hc ▸ hu _)
            · simp only [sentCommands, List.mem_cons] at hc
              rcases hc with hc | hc | hc
              · exact Or.inl (hc ▸ hs _)
              · exact Or.inr (hc ▸ hu _)
              · exact ih _ _ _ c hc
        · split at hc
          · simp only [sentCommands, List.mem_singleton] at hc
            exact Or.inl (hc ▸ hs _)
          · simp only [sentCommands, List.mem_cons] at hc
            rcases hc with hc | hc
            · exact Or.inl (hc ▸ hs _)
            · exact ih _ _ _ c hc

theorem failure_inside_loop (lt : List Event) (returned : Bool) (j : Nat) (cmd : Command)
    (h : (Event.borrow :: lt ++ (if returned then [Event.release] else []))[j]?
      = some (.Do cmd true)) :
    ∃ i, j = i + 1 ∧ lt[i]? = some (.Do cmd true) ∧ i < lt.length := by
  cases j with
  | zero => simp at h
  | succ i =>
    refine ⟨i, rfl, ?_⟩
    simp only [List.cons_append, List.getElem?_cons_succ] at h
    by_cases hi : i < lt.length
    · rw [List.getElem?_append_left hi] at h
      exact ⟨h, hi⟩
    · rw [List.getElem?_append_right (by omega)] at h
      cases returned with
      | false => simp at h
      | true =>
        simp only [if_true] at h
        cases hk : i - lt.length with
        | zero => rw [hk] at h; simp at h
        | succ k => rw [hk] at h; simp at h

theorem drop_after_failure (lt tail : List Event) (i : Nat) (hi : i < lt.length)
    (hd : lt.drop (i + 1) = []) :
    (Event.borrow :: lt ++ tail).drop (i + 1 + 1) = tail := by
  simp only [List.cons_append, List.drop_succ_cons]
  rw [List.drop_append_of_le_length (by omega), hd, List.nil_append]

theorem sentCommands_release (xs : List Event) (b : Bool) :
    sentCommands (Event.borrow :: xs ++ (if b then [Event.release] else []))
      = sentCommands xs := by
  rw [show Event.borrow :: xs ++ (if b then [Event.release] else [])
    = [Event.borrow] ++ (xs ++ (if b then [Event.release] else [])) from rfl,
    sentCommands_append, sentCommands_append]
  cases b <;> simp [sentCommands]

/-- C7: on an initialized client, whenever a run of GetKeys or Clear contains a
failed round trip (a SCAN that failed or whose reply could not be decoded, or
for Clear an UNLINK that failed), the operation has returned right after it:
the only event after the failed round trip is the release of the connection.
GetKeys then returns no keys and an error that wraps ScanFailed, Clear an error
that wraps ClearFailed; and Clear never sends any command other than SCAN and
UNLINK, so nothing undoes the UNLINKs already sent. -/
theorem C7_abort_on_first_failure {σ ρ : Type} (rg : Redigo ρ) (p : Pool σ ρ)
    (pattern : String) (S : List String) (s : σ) (fuel j : Nat) (cmd : Command) :
    ((GetKeys rg fuel (NewClientFromPool (some p)) pattern S s).trace[j]?
        = some (.Do cmd true) →
      (GetKeys rg fuel (NewClientFromPool (some p)) pattern S s).trace.drop (j + 1)
        = [.release]
      ∧ ∃ c, (GetKeys rg fuel (NewClientFromPool (some p)) pattern S s).result
          = some ([], some (Errorf ErrScanFailed c))
        ∧ errorsIs (Errorf ErrScanFailed c) ErrScanFailed = true)
    ∧ ((Clear rg fuel (NewClientFromPool (some p)) pattern S s).trace[j]?
        = some (.Do cmd true) →
      (Clear rg fuel (NewClientFromPool (some p)) pattern S s).trace.drop (j + 1)
        = [.release]
      ∧ ∃ c, (Clear rg fuel (NewClientFromPool (some p)) pattern S s).result
          = some (some (Errorf ErrClearFailed c))
        ∧ errorsIs (Errorf ErrClearFailed c) ErrClearFailed = true)
    ∧ (∀ c ∈ sentCommands (Clear rg fuel (NewClientFromPool (some p)) pattern S s).trace,
        c.name = "SCAN" ∨ c.name = "UNLINK") := by
  refine ⟨?_, ?_, ?_⟩
  · intro h
    simp only [GetKeys, NewClientFromPool, Client.guarded] at h ⊢
    obtain ⟨i, rfl, hi, hlt⟩ := failure_inside_loop _ _ _ _ h
    obtain ⟨hd, c, hc⟩ := GetKeys_loop_failure rg p _ fuel 0 [] [] s i cmd hi
    rw [drop_after_failure _ _ i hlt hd, hc]
    exact ⟨rfl, c, rfl, errorsIs_Errorf_sentinel _ _ _ ▸ by decide⟩
  · intro h
    simp only [Clear, NewClientFromPool, Client.guarded] at h ⊢
    obtain ⟨i, rfl, hi, hlt⟩ := failure_inside_loop _ _ _ _ h
    obtain ⟨hd, c, hc⟩ := Clear_loop_failure rg p _ fuel 0 [] s i cmd hi
    rw [drop_after_failure _ _ i hlt hd, hc]
    exact ⟨rfl, c, rfl, errorsIs_Errorf_sentinel _ _ _ ▸ by decide⟩
  · intro c hc
    simp only [Clear, NewClientFromPool, Client.guarded, sentCommands_release] at hc
    exact Clear_loop_commands rg p _ fuel 0 [] s c hc

/-- C7 on a store that serves the page (7, [a]) and then refuses: the second
SCAN of GetKeys fails, and so does the first UNLINK of Clear. -/
theorem C7_abort_on_first_failure_witness :
    ((GetKeys testRedigo 5 (NewClientFromPool (some failingPool)) "*" [] 0).trace.drop 3
        = [.release]
      ∧ ∃ c, (GetKeys testRedigo 5 (NewClientFromPool (some failingPool)) "*" [] 0).result
          = some ([], some (Errorf ErrScanFailed c))
        ∧ errorsIs (Errorf ErrScanFailed c) ErrScanFailed = true)
    ∧ ((Clear testRedigo 5 (NewClientFromPool (some failingPool)) "*" [] 0).trace.drop 3
        = [.release]
      ∧ ∃ c, (Clear testRedigo 5 (NewClientFromPool (some failingPool)) "*" [] 0).result
          = some (some (Errorf ErrClearFailed c))
        ∧ errorsIs (Errorf ErrClearFailed c) ErrClearFailed = true) :=
  ⟨(C7_abort_on_first_failure testRedigo failingPool "*" [] 0 5 2 (scanCommand 7 "*")).1 rfl,
    (C7_abort_on_first_failure testRedigo failingPool "*" [] 0 5 2
      (unlinkCommand ["a"])).2.1 rfl⟩

/-! ## The pattern sent by the scan loops -/

theorem doPrintf_no_percent (fuel : Nat) (format : List Char) (h : '%' ∉ format) :
    doPrintf (fuel + 1) format = format := by
  have hd : format.dropWhile (fun c => c != '%') = [] := by
    rw [List.dropWhile_eq_nil_iff]
    intro c hc
    have : c ≠ '%' := fun e => h (e ▸ hc)
    simpa using this
  have ht : format.takeWhile (fun c => c != '%') = format := by
    rw [List.takeWhile_eq_self_iff]
    intro c hc
    have : c ≠ '%' := fun e => h (e ▸ hc)
    simpa using this
  simp only [doPrintf, hd, ht]

theorem Sprintf0_no_percent (ns : String) (h : '%' ∉ ns.data) : Sprintf0 ns = ns := by
  unfold Sprintf0
  rw [doPrintf_no_percent _ _ h]

theorem GetKeys_first_command {σ ρ : Type} (rg : Redigo ρ) (p : Pool σ ρ) (pattern : String)
    (S : List String) (s : σ) (fuel : Nat) :
    (sentCommands (GetKeys rg (fuel + 1) (NewClientFromPool (some p)) pattern S s).trace).head?
      = some ⟨"SCAN", [.int 0, .str "MATCH", .str (Sprintf0 (specResolve pattern S))]⟩ := by
  simp only [GetKeys, NewClientFromPool, Client.guarded, namespaced_eq_specResolve,
    sentCommands_release]
  unfold GetKeys.loop
  dsimp only
  split
  · rfl
  · split
    · rfl
    · split <;> rfl

/-- C2 at the pattern "k%d*": the SCAN command of GetKeys (no namespace) and of
Clear (namespace "ns") carries the match pattern "k%!d(MISSING)*", respectively
"ns:k%!d(MISSING)*", and not the resolved pattern "k%d*", respectively
"ns:k%d*". -/
theorem C2_percent_pattern_rewritten :
    sentCommands (GetKeys testRedigo 1
        (NewClientFromPool (some (constPool (some (.page 0 []), none)))) "k%d*" [] ()).trace
      = [⟨"SCAN", [.int 0, .str "MATCH", .str "k%!d(MISSING)*"]⟩]
    ∧ sentCommands (Clear testRedigo 1
        (NewClientFromPool (some (constPool (some (.page 0 []), none)))) "k%d*" ["ns"] ()).trace
      = [⟨"SCAN", [.int 0, .str "MATCH", .str "ns:k%!d(MISSING)*"]⟩]
    ∧ specResolve "k%d*" [] = "k%d*"
    ∧ specResolve "k%d*" ["ns"] = "ns:k%d*" := by
  decide

end Redis
